import Mathlib

/-!
Shallow embedding of the retail point-of-sale application (`script.js`).

Modelling conventions:
* JavaScript numbers that hold money or rates are modelled as `ℚ`
  (exact arithmetic; the source's `0.1` literal is the rational `1/10`).
* Product stock is modelled as `Int`, because the source can drive it
  negative (checkout subtracts without a stock check).
* Cart quantities are `Nat` (they are produced by `addToCart` starting
  at 1 and incremented/decremented by ±1 steps).
* `Date.now()` timestamps are `Nat` milliseconds; calendar arithmetic
  (`setDate`, month boundaries) is modelled in UTC on the epoch scale.
* DOM reads (input fields, checkboxes) become explicit parameters;
  DOM writes, toasts and persistence are ignored (no observable state).
* JS in-place mutation of the object returned by `Array.prototype.find`
  becomes an update of the first list element matching the id.
-/

namespace POS

structure Product where
  id : Nat
  name : String
  category : String
  price : ℚ
  stock : Int
  deriving DecidableEq

structure CartItem where
  id : Nat
  name : String
  price : ℚ
  quantity : Nat
  deriving DecidableEq

structure Discount where
  dtype : String
  value : ℚ
  code : String
  deriving DecidableEq

structure Customer where
  name : String
  phone : String
  deriving DecidableEq

structure Sale where
  id : Nat
  date : Nat
  customer : Customer
  items : List CartItem
  subtotal : ℚ
  discount : ℚ
  discountType : String
  discountValue : ℚ
  tax : ℚ
  total : ℚ
  deriving DecidableEq

structure User where
  id : Nat
  name : String
  username : String
  password : String
  role : String
  email : String
  isActive : Bool
  deriving DecidableEq

structure AppState where
  products : List Product
  cart : List CartItem
  sales : List Sale
  discount : Discount
  users : List User
  currentUser : Option User
  deriving DecidableEq

/-- The discount state installed by the constructor and restored after
checkout: `{ type: 'percentage', value: 0, code: '' }`. -/
def initialDiscount : Discount :=
  { dtype := "percentage", value := 0, code := "" }

/-- `this.cart.reduce((sum, item) => sum + (item.price * item.quantity), 0)`. -/
def cartSubtotal (cart : List CartItem) : ℚ :=
  cart.foldl (fun sum item => sum + item.price * (item.quantity : ℚ)) 0

/-- The discount block shared by `updateCartSummary` and `checkout`:
zero unless `discount.value > 0`, then percentage of the subtotal or the
fixed value capped at the subtotal. -/
def discountAmountOf (d : Discount) (subtotal : ℚ) : ℚ :=
  if 0 < d.value then
    if d.dtype = "percentage" then subtotal * (d.value / 100)
    else min d.value subtotal
  else 0

structure CartSummary where
  subtotal : ℚ
  discountAmount : ℚ
  tax : ℚ
  total : ℚ
  deriving DecidableEq

/-- `updateCartSummary()` (the arithmetic; the DOM writes are dropped).
The `taxEnabled` checkbox is an explicit parameter. -/
def updateCartSummary (cart : List CartItem) (d : Discount) (taxEnabled : Bool) :
    CartSummary :=
  let subtotal := cartSubtotal cart
  let discountAmount := discountAmountOf d subtotal
  let discountedSubtotal := subtotal - discountAmount
  let tax := if taxEnabled then discountedSubtotal * (1 / 10) else 0
  { subtotal := subtotal, discountAmount := discountAmount, tax := tax,
    total := discountedSubtotal + tax }

/-- `applyDiscount()`: rejects a non-positive value and a percentage
above 100, otherwise installs the new discount. -/
def applyDiscount (code : String) (value : ℚ) (dtype : String) (s : AppState) :
    AppState :=
  if value ≤ 0 then s
  else if dtype = "percentage" ∧ 100 < value then s
  else { s with discount := { dtype := dtype, value := value, code := code } }

/-- Update the first product whose id matches (JS `products.find(...)`
followed by in-place mutation of the found object). -/
def updateFirstProduct (ps : List Product) (pid : Nat) (f : Product → Product) :
    List Product :=
  match ps with
  | [] => []
  | p :: rest =>
    if p.id == pid then f p :: rest else p :: updateFirstProduct rest pid f

/-- Update the first cart item whose id matches. -/
def updateFirstItem (cart : List CartItem) (pid : Nat) (f : CartItem → CartItem) :
    List CartItem :=
  match cart with
  | [] => []
  | it :: rest =>
    if it.id == pid then f it :: rest else it :: updateFirstItem rest pid f

/-- `addToCart(productId)`. Rejects a missing product and `stock === 0`;
rejects `existingItem.quantity >= product.stock`; otherwise increments
the existing line or pushes a fresh line with quantity 1. -/
def addToCart (pid : Nat) (s : AppState) : AppState :=
  match s.products.find? (fun p => p.id == pid) with
  | none => s
  | some product =>
    if product.stock = 0 then s
    else
      match s.cart.find? (fun item => item.id == pid) with
      | some existing =>
        if product.stock ≤ (existing.quantity : Int) then s
        else
          let cart := updateFirstItem s.cart pid
            (fun it => { it with quantity := it.quantity + 1 })
          { s with cart := cart }
      | none =>
        { s with cart := s.cart ++
            [{ id := product.id, name := product.name, price := product.price,
               quantity := 1 }] }

/-- `removeFromCart(productId)`. -/
def removeFromCart (pid : Nat) (s : AppState) : AppState :=
  { s with cart := s.cart.filter (fun item => !(item.id == pid)) }

/-- `updateQuantity(productId, change)`. A new quantity `≤ 0` removes the
line; a new quantity above the product's stock is rejected. The source
dereferences `product.stock` without a null check, so a cart line whose
product is gone throws before any mutation; that path is modelled as no
state change. -/
def updateQuantity (pid : Nat) (change : Int) (s : AppState) : AppState :=
  match s.cart.find? (fun item => item.id == pid) with
  | none => s
  | some item =>
    let newQuantity : Int := (item.quantity : Int) + change
    if newQuantity ≤ 0 then removeFromCart pid s
    else
      match s.products.find? (fun p => p.id == pid) with
      | none => s
      | some product =>
        if product.stock < newQuantity then s
        else
          let cart := updateFirstItem s.cart pid
            (fun it => { it with quantity := newQuantity.toNat })
          { s with cart := cart }

/-- The sale record built inside `checkout()`. The source recomputes the
summary arithmetic inline (it does not call `updateCartSummary`), so the
formulas are repeated here as they are in the source. `now` stands for
`Date.now()` and also for the `new Date().toISOString()` instant. -/
def checkoutSale (now : Nat) (customerName customerPhone : String)
    (taxEnabled : Bool) (cart : List CartItem) (d : Discount) : Sale :=
  let subtotal := cartSubtotal cart
  let discountAmount :=
    if 0 < d.value then
      if d.dtype = "percentage" then subtotal * (d.value / 100)
      else min d.value subtotal
    else 0
  let discountedSubtotal := subtotal - discountAmount
  let tax := if taxEnabled then discountedSubtotal * (1 / 10) else 0
  { id := now, date := now,
    customer := { name := customerName, phone := customerPhone },
    items := cart, subtotal := subtotal, discount := discountAmount,
    discountType := d.dtype, discountValue := d.value, tax := tax,
    total := discountedSubtotal + tax }

/-- The stock-update loop of `checkout()`:
`cart.forEach(item => { const p = products.find(...); if (p) p.stock -= item.quantity })`. -/
def decrementStocks (ps : List Product) (cart : List CartItem) : List Product :=
  cart.foldl
    (fun acc item => updateFirstProduct acc item.id
      (fun p => { p with stock := p.stock - (item.quantity : Int) }))
    ps

/-- `checkout()`. The only rejection is an empty cart; otherwise the sale
is appended, stocks are decremented (with no stock-level check), and the
cart and discount are reset. -/
def checkout (now : Nat) (customerName customerPhone : String)
    (taxEnabled : Bool) (s : AppState) : AppState :=
  if s.cart = [] then s
  else
    let sale := checkoutSale now customerName customerPhone taxEnabled
      s.cart s.discount
    { s with
      products := decrementStocks s.products s.cart,
      sales := s.sales ++ [sale],
      cart := [],
      discount := initialDiscount }

/-- `saveProduct()`. `price`/`stock` are the parsed form inputs, `none`
modelling `NaN`; empty name or category is rejected. `editId` is
`this.currentEditId`; `now` is `Date.now()` for a fresh product id.
The inert presentation fields (barcode, description, quickKey) are not
modelled. -/
def saveProduct (editId : Option Nat) (now : Nat) (name category : String)
    (price : Option ℚ) (stock : Option Int) (s : AppState) : AppState :=
  match price, stock with
  | some pr, some st =>
    if name = "" ∨ category = "" then s
    else
      match editId with
      | some pid =>
        let products := updateFirstProduct s.products pid
          (fun p => { p with name := name, category := category,
                             price := pr, stock := st })
        { s with products := products }
      | none =>
        { s with products := s.products ++
            [{ id := now, name := name, category := category,
               price := pr, stock := st }] }
  | _, _ => s

/-- `deleteProduct(productId)` (the confirmed path): removes the product
and any cart line for it. -/
def deleteProduct (pid : Nat) (s : AppState) : AppState :=
  { s with
    products := s.products.filter (fun p => !(p.id == pid)),
    cart := s.cart.filter (fun item => !(item.id == pid)) }

/-- `reorderProduct(productId, quantity)`: adds `quantity` to the stock
of the matching product, if any. -/
def reorderProduct (pid : Nat) (quantity : Int) (s : AppState) : AppState :=
  match s.products.find? (fun p => p.id == pid) with
  | none => s
  | some _ =>
    let products := updateFirstProduct s.products pid
      (fun p => { p with stock := p.stock + quantity })
    { s with products := products }

/-- Stock of the first product with the given id, if any. -/
def getStock (ps : List Product) (pid : Nat) : Option Int :=
  (ps.find? (fun p => p.id == pid)).map (fun p => p.stock)

/-- Total cart quantity carried by lines with the given product id. -/
def cartQuantity (cart : List CartItem) (pid : Nat) : Nat :=
  (cart.filter (fun item => item.id == pid)).foldl
    (fun sum item => sum + item.quantity) 0

/-- `hasPermission(permission)`: `false` with no logged-in user, then the
role switch; any permission string outside the three known ones falls to
the `default: return false` branch. -/
def hasPermission (currentUser : Option User) (permission : String) : Bool :=
  match currentUser with
  | none => false
  | some u =>
    if permission = "admin" then u.role == "admin"
    else if permission = "manager" then
      u.role == "admin" || u.role == "manager"
    else if permission = "cashier" then
      u.role == "admin" || u.role == "manager" || u.role == "cashier"
    else false

/-- The form fields consumed by `addUser`. -/
structure UserData where
  name : String
  username : String
  password : String
  role : String
  email : String
  deriving DecidableEq

/-- `addUser(userData)`: requires the `admin` permission and a fresh
username; returns the (possibly unchanged) state and the boolean result. -/
def addUser (now : Nat) (d : UserData) (s : AppState) : AppState × Bool :=
  if !(hasPermission s.currentUser "admin") then (s, false)
  else if s.users.any (fun u => u.username == d.username) then (s, false)
  else
    let newUser : User :=
      { id := now, name := d.name, username := d.username,
        password := d.password, role := d.role, email := d.email,
        isActive := true }
    ({ s with users := s.users ++ [newUser] }, true)

/-! ### Report/filter engine (`getFilteredSales`) -/

/-- Milliseconds per day. -/
def dayMs : Nat := 86400000

/-- Midnight (00:00:00.000) of the civil day containing `t`, modelled in
UTC on the millisecond epoch scale. -/
def startOfDay (t : Int) : Int := t - t % (dayMs : Int)

/-- Day of week of timestamp `t` (0 = Sunday); the Unix epoch fell on a
Thursday. -/
def dayOfWeek (t : Int) : Int := (t / (dayMs : Int) + 4) % 7

/-- Civil date (year, month 1–12, day 1–31) of a day count from the Unix
epoch (standard era-based Gregorian conversion). -/
def civilFromDays (z0 : Int) : Int × Int × Int :=
  let z := z0 + 719468
  let era := (if 0 ≤ z then z else z - 146096) / 146097
  let doe := z - era * 146097
  let yoe := (doe - doe / 1460 + doe / 36524 - doe / 146096) / 365
  let y := yoe + era * 400
  let doy := doe - (365 * yoe + yoe / 4 - yoe / 100)
  let mp := (5 * doy + 2) / 153
  let d := doy - (153 * mp + 2) / 5 + 1
  let m := if mp < 10 then mp + 3 else mp - 9
  (if m ≤ 2 then y + 1 else y, m, d)

/-- Day count from the Unix epoch of a civil date (inverse of
`civilFromDays`). -/
def daysFromCivil (y0 m d : Int) : Int :=
  let y := if m ≤ 2 then y0 - 1 else y0
  let era := (if 0 ≤ y then y else y - 399) / 400
  let yoe := y - era * 400
  let doy := (153 * (if 2 < m then m - 3 else m + 9) + 2) / 5 + d - 1
  let doe := yoe * 365 + yoe / 4 - yoe / 100 + doy
  era * 146097 + doe - 719468

/-- Midnight of the first day of the month containing `t`
(`new Date(y, m, 1)`, modelled in UTC). -/
def startOfMonth (t : Int) : Int :=
  let c := civilFromDays (t / (dayMs : Int))
  daysFromCivil c.1 c.2.1 1 * (dayMs : Int)

/-- 23:59:59 of the last day of the month containing `t`
(`new Date(y, m + 1, 0, 23, 59, 59)`, modelled in UTC). -/
def endOfMonth (t : Int) : Int :=
  let c := civilFromDays (t / (dayMs : Int))
  let firstOfNext :=
    if c.2.1 = 12 then daysFromCivil (c.1 + 1) 1 1 else daysFromCivil c.1 (c.2.1 + 1) 1
  (firstOfNext - 1) * (dayMs : Int) + 86399000

/-- `this.currentFilter`. `startDate`/`endDate` are the parsed custom
range bounds (already timestamps), `none` when unset. -/
structure SalesFilter where
  search : String
  dateRange : String
  startDate : Option Int
  endDate : Option Int
  deriving DecidableEq

/-- Boolean list-prefix test used to define the substring test. -/
def listPrefixOf : List Char → List Char → Bool
  | [], _ => true
  | _ :: _, [] => false
  | a :: as, b :: bs => a == b && listPrefixOf as bs

/-- Boolean list-infix test: does the needle occur contiguously in the
hay? -/
def listInfixOf (needle : List Char) : List Char → Bool
  | [] => needle.isEmpty
  | b :: bs => listPrefixOf needle (b :: bs) || listInfixOf needle bs

/-- JS `hay.includes(needle)` as a substring test on the character
lists. -/
def includesStr (hay needle : String) : Bool :=
  listInfixOf needle.data hay.data

/-- The free-text predicate of `getFilteredSales`: case-insensitive
substring of the customer name, or substring of the decimal sale id. -/
def matchesSearch (search : String) (sale : Sale) : Bool :=
  let term := search.toLower
  includesStr sale.customer.name.toLower term ||
    includesStr (toString sale.id) term

/-- The `switch (dateRange)` of `getFilteredSales`: the inclusive
`[startDate, endDate]` window, or `none` when no date filter applies
(unknown range, or `custom` with a missing bound). The `today` window
ends at 23:59:59, `week` at 23:59:59.999 of the sixth following day,
`month` at 23:59:59 of the month's last day, `custom` at 23:59:59.999 of
the chosen end day. -/
def dateWindow (now : Int) (f : SalesFilter) : Option (Int × Int) :=
  match f.dateRange with
  | "today" => some (startOfDay now, startOfDay now + ((dayMs : Int) - 1000))
  | "week" =>
    let start := startOfDay now - dayOfWeek now * (dayMs : Int)
    some (start, start + 7 * (dayMs : Int) - 1)
  | "month" => some (startOfMonth now, endOfMonth now)
  | "custom" =>
    match f.startDate, f.endDate with
    | some sd, some ed => some (sd, startOfDay ed + ((dayMs : Int) - 1))
    | _, _ => none
  | _ => none

/-- Insert a sale into a list sorted by descending date. -/
def insertSaleDesc (sale : Sale) : List Sale → List Sale
  | [] => [sale]
  | b :: rest =>
    if b.date ≤ sale.date then sale :: b :: rest
    else b :: insertSaleDesc sale rest

/-- Sort sales by descending date
(`filteredSales.sort((a, b) => new Date(b.date) - new Date(a.date))`,
modelled as an insertion sort on the same key). -/
def sortSalesDesc : List Sale → List Sale
  | [] => []
  | a :: rest => insertSaleDesc a (sortSalesDesc rest)

/-- `getFilteredSales()`: free-text filter (skipped for the empty search
string), then the date-window filter (skipped for range `all` or an
unresolved window), then the descending sort by date. -/
def getFilteredSales (now : Int) (f : SalesFilter) (sales : List Sale) :
    List Sale :=
  let bySearch :=
    if f.search = "" then sales else sales.filter (matchesSearch f.search)
  let byDate :=
    if f.dateRange = "all" then bySearch
    else
      match dateWindow now f with
      | some (sd, ed) =>
        bySearch.filter (fun sale =>
          decide (sd ≤ (sale.date : Int)) && decide ((sale.date : Int) ≤ ed))
      | none => bySearch
  sortSalesDesc byDate

/-! ### Inventory forecasting -/

/-- The `item ? item.quantity : 0` term of the per-sale quantity
reductions. -/
def itemQuantityIn (sale : Sale) (pid : Nat) : ℚ :=
  match sale.items.find? (fun i => i.id == pid) with
  | some i => (i.quantity : ℚ)
  | none => 0

/-- Units of product `pid` sold in the trailing 30 days (the
filter-and-reduce inside `getProductSalesVelocity`; the source's
`setDate(getDate() - 30)` cutoff is modelled as 30 exact days). -/
def soldLast30 (now : Int) (sales : List Sale) (pid : Nat) : ℚ :=
  let cutoff := now - 30 * (dayMs : Int)
  let recentSales := sales.filter (fun sale =>
    decide (cutoff ≤ (sale.date : Int)) &&
      sale.items.any (fun item => item.id == pid))
  recentSales.foldl (fun sum sale => sum + itemQuantityIn sale pid) 0

/-- `getProductSalesVelocity(productId)`: daily velocity over the
trailing 30 days. -/
def getProductSalesVelocity (now : Int) (sales : List Sale) (pid : Nat) : ℚ :=
  soldLast30 now sales pid / 30

/-- Units sold in the most recent 60 days (the `recentTotal` reduce of
`calculateProductTrend`; the source uses exact-millisecond 60-day
arithmetic). -/
def trendRecentTotal (now : Int) (sales : List Sale) (pid : Nat) : ℚ :=
  let last60 := now - 60 * (dayMs : Int)
  let recentSales := sales.filter (fun sale =>
    decide (last60 ≤ (sale.date : Int)) &&
      sale.items.any (fun item => item.id == pid))
  recentSales.foldl (fun sum sale => sum + itemQuantityIn sale pid) 0

/-- Units sold in the prior 60-day window (the `oldTotal` reduce of
`calculateProductTrend`). -/
def trendOldTotal (now : Int) (sales : List Sale) (pid : Nat) : ℚ :=
  let last60 := now - 60 * (dayMs : Int)
  let prev60 := last60 - 60 * (dayMs : Int)
  let oldSales := sales.filter (fun sale =>
    decide (prev60 ≤ (sale.date : Int)) && decide ((sale.date : Int) < last60) &&
      sale.items.any (fun item => item.id == pid))
  oldSales.foldl (fun sum sale => sum + itemQuantityIn sale pid) 0

/-- `calculateProductTrend(productId)`: relative change between the two
60-day windows, `0.5` for sales appearing from a silent prior window,
`0` when both windows are silent. -/
def calculateProductTrend (now : Int) (sales : List Sale) (pid : Nat) : ℚ :=
  let recentTotal := trendRecentTotal now sales pid
  let oldTotal := trendOldTotal now sales pid
  if oldTotal = 0 then (if 0 < recentTotal then 1 / 2 else 0)
  else (recentTotal - oldTotal) / oldTotal

/-- One entry of `calculateDemandPredictions()`. -/
structure DemandPrediction where
  name : String
  currentVelocity : ℚ
  predictedVelocity : ℚ
  confidence : ℚ
  recommendedStock : Int
  deriving DecidableEq

/-- The per-product body of `calculateDemandPredictions()`. -/
def demandPrediction (now : Int) (sales : List Sale) (p : Product) :
    DemandPrediction :=
  let velocity := getProductSalesVelocity now sales p.id
  let trend := calculateProductTrend now sales p.id
  { name := p.name,
    currentVelocity := velocity,
    predictedVelocity := velocity * (1 + trend),
    confidence := min (|trend| * 100) 90,
    recommendedStock := Int.ceil (velocity * (1 + trend) * 45) }

/-- `calculateDemandPredictions()`: the predictions object, keyed by
product id. -/
def calculateDemandPredictions (now : Int) (products : List Product)
    (sales : List Sale) : List (Nat × DemandPrediction) :=
  products.map (fun p => (p.id, demandPrediction now sales p))

/-- One entry of the reorder-suggestions list. -/
structure ReorderSuggestion where
  id : Nat
  name : String
  currentStock : Int
  suggestedStock : Int
  reorderAmount : Int
  velocity : ℚ
  deriving DecidableEq

/-- Insert a suggestion into a list sorted by descending
`reorderAmount`. -/
def insertReorderDesc (x : ReorderSuggestion) :
    List ReorderSuggestion → List ReorderSuggestion
  | [] => [x]
  | b :: rest =>
    if b.reorderAmount ≤ x.reorderAmount then x :: b :: rest
    else b :: insertReorderDesc x rest

/-- Sort suggestions by descending `reorderAmount`
(`.sort((a, b) => b.reorderAmount - a.reorderAmount)`, modelled as an
insertion sort on the same key). -/
def sortReorderDesc : List ReorderSuggestion → List ReorderSuggestion
  | [] => []
  | a :: rest => insertReorderDesc a (sortReorderDesc rest)

/-- The reorder-suggestions pipeline of `calculateInventoryForecast()`:
keep products with positive velocity, build the suggestion, keep
positive reorder amounts, sort descending by reorder amount. -/
def reorderSuggestions (now : Int) (products : List Product)
    (sales : List Sale) : List ReorderSuggestion :=
  let positive := products.filter (fun p =>
    decide (0 < getProductSalesVelocity now sales p.id))
  let mapped := positive.map (fun p =>
    let velocity := getProductSalesVelocity now sales p.id
    let suggestedStock := Int.ceil (velocity * 30)
    let reorderAmount := max (suggestedStock - p.stock) 0
    { id := p.id, name := p.name, currentStock := p.stock,
      suggestedStock := suggestedStock, reorderAmount := reorderAmount,
      velocity := velocity : ReorderSuggestion })
  sortReorderDesc (mapped.filter (fun item => decide (0 < item.reorderAmount)))

/-! ### Invariants and concrete fixture states -/

/-- Boolean check that a cart line's quantity is within the live stock of
its product (vacuously true when no product matches the line). -/
def stockOKb (ps : List Product) (item : CartItem) : Bool :=
  match getStock ps item.id with
  | some st => decide ((item.quantity : Int) ≤ st)
  | none => true

/-- The stock invariant: all stocks are nonnegative, every cart line fits
within its product's live stock, and cart lines carry distinct product
ids (as `addToCart` guarantees). -/
def StockInv (s : AppState) : Prop :=
  (∀ p ∈ s.products, 0 ≤ p.stock) ∧
  (∀ item ∈ s.cart, stockOKb s.products item = true) ∧
  (s.cart.map (fun item => item.id)).Nodup

instance instDecidableStockInv (s : AppState) : Decidable (StockInv s) := by
  unfold StockInv
  infer_instance

/-- A state with an empty cart (fixture). -/
def emptyCartState : AppState :=
  { products := [{ id := 1, name := "Widget", category := "general",
                   price := 10, stock := 4 }],
    cart := [], sales := [], discount := initialDiscount,
    users := [], currentUser := none }

/-- Fixture cart for the totals witnesses. -/
def w4cart : List CartItem :=
  [{ id := 1, name := "Widget", price := 100, quantity := 2 }]

/-- Fixture percentage discount. -/
def w4discount : Discount := { dtype := "percentage", value := 10, code := "" }

/-- Fixture admin user. -/
def posAdmin : User :=
  { id := 1, name := "Ada", username := "ada", password := "pw",
    role := "admin", email := "", isActive := true }

/-- Fixture manager user. -/
def posManager : User :=
  { id := 2, name := "Mia", username := "mia", password := "pw",
    role := "manager", email := "", isActive := true }

/-- Fixture cashier user. -/
def posCashier : User :=
  { id := 3, name := "Cay", username := "cay", password := "pw",
    role := "cashier", email := "", isActive := true }

/-- A state whose current user is a cashier (fixture). -/
def cashierState : AppState :=
  { products := [], cart := [], sales := [], discount := initialDiscount,
    users := [posAdmin, posCashier], currentUser := some posCashier }

/-- Fixture form data for `addUser`. -/
def w8data : UserData :=
  { name := "New", username := "new", password := "pw",
    role := "cashier", email := "" }

/-- A state whose single cart line asks for more units than the live
stock of its product (fixture for the checkout stock-check analysis). -/
def overdrawnState : AppState :=
  { products := [{ id := 1, name := "Widget", category := "general",
                   price := 10, stock := 1 }],
    cart := [{ id := 1, name := "Widget", price := 10, quantity := 5 }],
    sales := [], discount := initialDiscount, users := [],
    currentUser := none }

/-- Start state for the stock-invariant analysis: one product, stock 3,
empty cart (fixture). -/
def c3start : AppState :=
  { products := [{ id := 1, name := "Widget", category := "general",
                   price := 2, stock := 3 }],
    cart := [], sales := [], discount := initialDiscount, users := [],
    currentUser := none }

/-- Add the product three times, then edit its stock down to 1, then
check out: the operation sequence that drives the stock negative. -/
def c3end : AppState :=
  checkout 9 "" "" false
    (saveProduct (some 1) 9 "Widget" "general" (some 2) (some 1)
      (addToCart 1 (addToCart 1 (addToCart 1 c3start))))

/-- Start state for the sale-id analysis: one product with ample stock
(fixture). -/
def c6start : AppState :=
  { products := [{ id := 1, name := "Widget", category := "general",
                   price := 2, stock := 10 }],
    cart := [], sales := [], discount := initialDiscount, users := [],
    currentUser := none }

/-- Two checkouts performed at the same `Date.now()` value 5. -/
def c6end : AppState :=
  checkout 5 "" "" false (addToCart 1 (checkout 5 "" "" false (addToCart 1 c6start)))

/-- `c6start` with one unit in the cart (fixture for the sale-id
witness). -/
def w6state : AppState := addToCart 1 c6start

/-- A state whose cart holds a line for a product id absent from the
catalog, next to a line for a live product (fixture). -/
def orphanState : AppState :=
  { products := [{ id := 1, name := "Widget", category := "general",
                   price := 10, stock := 4 }],
    cart := [{ id := 1, name := "Widget", price := 10, quantity := 2 },
             { id := 2, name := "Gone", price := 7, quantity := 3 }],
    sales := [], discount := initialDiscount, users := [],
    currentUser := none }

/-- The orphaned cart line of `orphanState`. -/
def orphanLine : CartItem := { id := 2, name := "Gone", price := 7, quantity := 3 }

/-- Fixture product for the silent-product forecast witness. -/
def w9product : Product :=
  { id := 1, name := "Widget", category := "general", price := 10, stock := 4 }

/-! ### Basic arithmetic lemmas -/

theorem foldl_add_price (cart : List CartItem) (init : ℚ) :
    cart.foldl (fun sum item => sum + item.price * (item.quantity : ℚ)) init
      = init + (cart.map (fun item => item.price * (item.quantity : ℚ))).sum := by
  induction cart generalizing init with
  | nil => simp
  | cons i rest ih => simp [List.foldl_cons, ih, add_assoc]

theorem cartSubtotal_eq_sum (cart : List CartItem) :
    cartSubtotal cart
      = (cart.map (fun item => item.price * (item.quantity : ℚ))).sum := by
  simpa [cartSubtotal] using foldl_add_price cart 0

theorem cartSubtotal_nonneg (cart : List CartItem)
    (h : ∀ item ∈ cart, 0 ≤ item.price) : 0 ≤ cartSubtotal cart := by
  rw [cartSubtotal_eq_sum]
  apply List.sum_nonneg
  intro x hx
  obtain ⟨item, hitem, rfl⟩ := List.mem_map.1 hx
  exact mul_nonneg (h item hitem) (by positivity)

theorem discountedSubtotal_nonneg (d : Discount) (subtotal : ℚ)
    (hsub : 0 ≤ subtotal) (hperc : d.dtype = "percentage" → d.value ≤ 100) :
    0 ≤ subtotal - discountAmountOf d subtotal := by
  unfold discountAmountOf
  split
  · split
    · rename_i hpos hp
      have hv : d.value ≤ 100 := hperc hp
      have h1 : 0 ≤ 1 - d.value / 100 := by linarith
      have h2 : 0 ≤ subtotal * (1 - d.value / 100) := mul_nonneg hsub h1
      nlinarith
    · have := min_le_right d.value subtotal
      linarith
  · simpa using hsub

/-! ### Claim C1 -/

/-- C1: for every cart, discount configuration and tax flag, the
cart-summary computation yields subtotal = Σ price·quantity,
discountAmount = subtotal·(value/100) for a percentage discount and
min(value, subtotal) for a fixed one (0 when value ≤ 0),
tax = 0.10·(subtotal − discountAmount) exactly when tax is enabled, and
total = (subtotal − discountAmount) + tax; and the checkout computation
produces the same four figures in the sale record. -/
theorem C1_cart_totals (cart : List CartItem) (d : Discount) (te : Bool)
    (now : Nat) (cn cp : String) :
    (updateCartSummary cart d te).subtotal
        = (cart.map (fun item => item.price * (item.quantity : ℚ))).sum ∧
    (updateCartSummary cart d te).discountAmount
        = (if 0 < d.value then
             if d.dtype = "percentage" then
               (updateCartSummary cart d te).subtotal * (d.value / 100)
             else min d.value (updateCartSummary cart d te).subtotal
           else 0) ∧
    (updateCartSummary cart d te).tax
        = (if te then
             (1 / 10 : ℚ) * ((updateCartSummary cart d te).subtotal -
               (updateCartSummary cart d te).discountAmount)
           else 0) ∧
    (updateCartSummary cart d te).total
        = ((updateCartSummary cart d te).subtotal -
            (updateCartSummary cart d te).discountAmount) +
            (updateCartSummary cart d te).tax ∧
    (checkoutSale now cn cp te cart d).subtotal
        = (updateCartSummary cart d te).subtotal ∧
    (checkoutSale now cn cp te cart d).discount
        = (updateCartSummary cart d te).discountAmount ∧
    (checkoutSale now cn cp te cart d).tax = (updateCartSummary cart d te).tax ∧
    (checkoutSale now cn cp te cart d).total
        = (updateCartSummary cart d te).total := by
  refine ⟨cartSubtotal_eq_sum cart, ?_, ?_, ?_, ?_, ?_, ?_, ?_⟩ <;>
    simp [updateCartSummary, checkoutSale, discountAmountOf, mul_comm]

/-! ### Claim C4 -/

/-- C4: for every cart with nonnegative prices and quantities ≥ 1, and
every discount state installable through `applyDiscount` (positive
value, percentage capped at 100), the summary satisfies
discountedSubtotal + tax = total and 0 ≤ total; the discount never
drives the total below zero. -/
theorem C4_total_nonneg (cart : List CartItem) (d : Discount) (te : Bool)
    (hprice : ∀ item ∈ cart, 0 ≤ item.price)
    (hqty : ∀ item ∈ cart, 1 ≤ item.quantity)
    (hval : 0 < d.value) (hperc : d.dtype = "percentage" → d.value ≤ 100) :
    ((updateCartSummary cart d te).subtotal -
        (updateCartSummary cart d te).discountAmount) +
        (updateCartSummary cart d te).tax = (updateCartSummary cart d te).total ∧
    0 ≤ (updateCartSummary cart d te).total := by
  have hsub : 0 ≤ cartSubtotal cart := cartSubtotal_nonneg cart hprice
  have hds : 0 ≤ cartSubtotal cart - discountAmountOf d (cartSubtotal cart) :=
    discountedSubtotal_nonneg d (cartSubtotal cart) hsub hperc
  constructor
  · simp [updateCartSummary]
  · simp only [updateCartSummary]
    split
    · nlinarith
    · simpa using hds

/-- Witness for C4 at the worked example of the spec: one line of price
100 and quantity 2 with a 10% discount and tax enabled. -/
theorem C4_total_nonneg_witness :
    ((updateCartSummary w4cart w4discount true).subtotal -
        (updateCartSummary w4cart w4discount true).discountAmount) +
        (updateCartSummary w4cart w4discount true).tax
          = (updateCartSummary w4cart w4discount true).total ∧
    0 ≤ (updateCartSummary w4cart w4discount true).total :=
  C4_total_nonneg w4cart w4discount true (by decide) (by decide) (by decide)
    (fun _ => by decide)

/-! ### Claim C5 -/

/-- C5: checkout invoked with an empty cart fails and causes no state
change at all: the resulting state is the argument state. -/
theorem C5_empty_checkout (now : Nat) (cn cp : String) (te : Bool)
    (s : AppState) (h : s.cart = []) : checkout now cn cp te s = s := by
  simp [checkout, h]

/-- Witness for C5 on a concrete empty-cart state. -/
theorem C5_empty_checkout_witness :
    checkout 1 "" "" false emptyCartState = emptyCartState :=
  C5_empty_checkout 1 "" "" false emptyCartState rfl

/-! ### Claim C8 -/

/-- C8: the permission check implements the strict role hierarchy —
admin is granted every known permission; manager is granted manager and
cashier but denied admin; cashier is granted only cashier; unknown
permission strings are always denied; and `addUser` invoked while a
cashier is logged in returns `false` and leaves the state (in particular
the user list) unchanged. -/
theorem C8_permission_hierarchy :
    (∀ u : User, u.role = "admin" →
       hasPermission (some u) "admin" = true ∧
       hasPermission (some u) "manager" = true ∧
       hasPermission (some u) "cashier" = true) ∧
    (∀ u : User, u.role = "manager" →
       hasPermission (some u) "manager" = true ∧
       hasPermission (some u) "cashier" = true ∧
       hasPermission (some u) "admin" = false) ∧
    (∀ u : User, u.role = "cashier" →
       hasPermission (some u) "cashier" = true ∧
       hasPermission (some u) "admin" = false ∧
       hasPermission (some u) "manager" = false) ∧
    (∀ (cu : Option User) (perm : String), perm ≠ "admin" →
       perm ≠ "manager" → perm ≠ "cashier" → hasPermission cu perm = false) ∧
    (∀ (s : AppState) (u : User) (now : Nat) (d : UserData),
       s.currentUser = some u → u.role = "cashier" →
       addUser now d s = (s, false)) := by
  refine ⟨?_, ?_, ?_, ?_, ?_⟩
  · intro u h; simp [hasPermission, h]
  · intro u h; simp [hasPermission, h]
  · intro u h; simp [hasPermission, h]
  · intro cu perm h1 h2 h3
    cases cu <;> simp [hasPermission, h1, h2, h3]
  · intro s u now d hcu hrole
    simp [addUser, hasPermission, hcu, hrole]

/-- Witness for C8 at concrete users: an admin holds the cashier
permission, a cashier is denied admin, an unknown permission is denied,
and `addUser` under a cashier session returns the unchanged state with
`false`. -/
theorem C8_permission_hierarchy_witness :
    hasPermission (some posAdmin) "cashier" = true ∧
    hasPermission (some posCashier) "admin" = false ∧
    hasPermission (some posAdmin) "refunds" = false ∧
    addUser 7 w8data cashierState = (cashierState, false) :=
  ⟨(C8_permission_hierarchy.1 posAdmin rfl).2.2,
   (C8_permission_hierarchy.2.2.1 posCashier rfl).2.1,
   C8_permission_hierarchy.2.2.2.1 (some posAdmin) "refunds"
     (by decide) (by decide) (by decide),
   C8_permission_hierarchy.2.2.2.2 cashierState posCashier 7 w8data rfl rfl⟩

/-! ### Sorting lemmas for the filter engine and the reorder list -/

theorem mem_insertSaleDesc {x y : Sale} {l : List Sale}
    (h : y ∈ insertSaleDesc x l) : y = x ∨ y ∈ l := by
  induction l with
  | nil => simpa [insertSaleDesc] using h
  | cons b rest ih =>
    by_cases hb : b.date ≤ x.date
    · simp only [insertSaleDesc, if_pos hb, List.mem_cons] at h
      rcases h with h | h | h
      · exact Or.inl h
      · exact Or.inr (by simp [h])
      · exact Or.inr (by simp [h])
    · simp only [insertSaleDesc, if_neg hb, List.mem_cons] at h
      rcases h with h | h
      · exact Or.inr (by simp [h])
      · rcases ih h with h' | h'
        · exact Or.inl h'
        · exact Or.inr (by simp [h'])

theorem sorted_insertSaleDesc {x : Sale} {l : List Sale}
    (h : List.Sorted (fun a b : Sale => b.date ≤ a.date) l) :
    List.Sorted (fun a b : Sale => b.date ≤ a.date) (insertSaleDesc x l) := by
  induction l with
  | nil => simp [insertSaleDesc]
  | cons b rest ih =>
    rw [List.sorted_cons] at h
    by_cases hb : b.date ≤ x.date
    · rw [insertSaleDesc, if_pos hb, List.sorted_cons]
      refine ⟨?_, by rw [List.sorted_cons]; exact h⟩
      intro y hy
      rcases List.mem_cons.1 hy with rfl | hy'
      · exact hb
      · exact le_trans (h.1 y hy') hb
    · rw [insertSaleDesc, if_neg hb, List.sorted_cons]
      refine ⟨?_, ih h.2⟩
      intro y hy
      rcases mem_insertSaleDesc hy with rfl | hy'
      · exact le_of_lt (lt_of_not_le hb)
      · exact h.1 y hy'

theorem sorted_sortSalesDesc (l : List Sale) :
    List.Sorted (fun a b : Sale => b.date ≤ a.date) (sortSalesDesc l) := by
  induction l with
  | nil => simp [sortSalesDesc]
  | cons a rest ih => exact sorted_insertSaleDesc ih

theorem mem_insertReorderDesc {x y : ReorderSuggestion}
    {l : List ReorderSuggestion} (h : y ∈ insertReorderDesc x l) :
    y = x ∨ y ∈ l := by
  induction l with
  | nil => simpa [insertReorderDesc] using h
  | cons b rest ih =>
    by_cases hb : b.reorderAmount ≤ x.reorderAmount
    · simp only [insertReorderDesc, if_pos hb, List.mem_cons] at h
      rcases h with h | h | h
      · exact Or.inl h
      · exact Or.inr (by simp [h])
      · exact Or.inr (by simp [h])
    · simp only [insertReorderDesc, if_neg hb, List.mem_cons] at h
      rcases h with h | h
      · exact Or.inr (by simp [h])
      · rcases ih h with h' | h'
        · exact Or.inl h'
        · exact Or.inr (by simp [h'])

theorem mem_sortReorderDesc {y : ReorderSuggestion}
    {l : List ReorderSuggestion} (h : y ∈ sortReorderDesc l) : y ∈ l := by
  induction l with
  | nil => simpa [sortReorderDesc] using h
  | cons a rest ih =>
    rcases mem_insertReorderDesc (by simpa [sortReorderDesc] using h) with h' | h'
    · simp [h']
    · exact List.mem_cons_of_mem _ (ih h')

/-! ### Claim C7 -/

/-- C7: the report/filter engine applied to an empty sale ledger returns
the empty list for every filter combination (any search text, any
date-range mode), and for every ledger and filter its output is sorted
in descending order of sale timestamp. -/
theorem C7_filter_engine :
    (∀ (now : Int) (f : SalesFilter), getFilteredSales now f [] = []) ∧
    (∀ (now : Int) (f : SalesFilter) (sales : List Sale),
       List.Sorted (fun a b : Sale => b.date ≤ a.date)
         (getFilteredSales now f sales)) := by
  constructor
  · intro now f
    cases hdw : dateWindow now f with
    | none => simp [getFilteredSales, hdw, List.filter_nil, ite_self, sortSalesDesc]
    | some w =>
      obtain ⟨sd, ed⟩ := w
      simp [getFilteredSales, hdw, List.filter_nil, ite_self, sortSalesDesc]
  · intro now f sales
    exact sorted_sortSalesDesc _

/-! ### Claim C9 -/

/-- C9: a product with zero units sold in every window of the sale
ledger has velocity 0 and trend 0, its recommended stock is 0, and it
does not appear in the reorder-suggestions list. -/
theorem C9_silent_product (now : Int) (products : List Product)
    (sales : List Sale) (p : Product) (hp : p ∈ products)
    (h30 : soldLast30 now sales p.id = 0)
    (h60 : trendRecentTotal now sales p.id = 0)
    (h120 : trendOldTotal now sales p.id = 0) :
    getProductSalesVelocity now sales p.id = 0 ∧
    calculateProductTrend now sales p.id = 0 ∧
    (demandPrediction now sales p).recommendedStock = 0 ∧
    ∀ e ∈ reorderSuggestions now products sales, e.id ≠ p.id := by
  have hv : getProductSalesVelocity now sales p.id = 0 := by
    simp [getProductSalesVelocity, h30]
  have ht : calculateProductTrend now sales p.id = 0 := by
    simp [calculateProductTrend, h60, h120]
  refine ⟨hv, ht, ?_, ?_⟩
  · simp [demandPrediction, hv, ht]
  · intro e he heq
    have he' := mem_sortReorderDesc he
    obtain ⟨hmem, -⟩ := List.mem_filter.1 he'
    obtain ⟨p', hp', rfl⟩ := List.mem_map.1 hmem
    obtain ⟨-, hpos⟩ := List.mem_filter.1 hp'
    have hpos' : 0 < getProductSalesVelocity now sales p'.id :=
      of_decide_eq_true hpos
    have : p'.id = p.id := heq
    rw [this, hv] at hpos'
    exact lt_irrefl 0 hpos'

/-- Witness for C9: a product never sold on an empty ledger. -/
theorem C9_silent_product_witness :
    getProductSalesVelocity 0 [] w9product.id = 0 ∧
    calculateProductTrend 0 [] w9product.id = 0 ∧
    (demandPrediction 0 [] w9product).recommendedStock = 0 ∧
    ∀ e ∈ reorderSuggestions 0 [w9product] [], e.id ≠ w9product.id :=
  C9_silent_product 0 [w9product] [] w9product (by simp) rfl rfl rfl

/-! ### Lemmas about stock lookup and the first-match updates -/

theorem getStock_cons (p : Product) (l : List Product) (pid : Nat) :
    getStock (p :: l) pid = if p.id = pid then some p.stock else getStock l pid := by
  by_cases hp : p.id = pid
  · have hb : ((fun r : Product => r.id == pid) p) = true := by simpa using hp
    simp [getStock, List.find?_cons_of_pos _ hb, hp]
  · have hb : ¬ ((fun r : Product => r.id == pid) p) = true := by simpa using hp
    simp [getStock, List.find?_cons_of_neg _ hb, hp]

theorem updateFirstProduct_of_none (ps : List Product) (pid : Nat)
    (f : Product → Product) (h : ∀ p ∈ ps, ¬ p.id = pid) :
    updateFirstProduct ps pid f = ps := by
  induction ps with
  | nil => rfl
  | cons p rest ih =>
    have hp : ¬ p.id = pid := h p (List.mem_cons_self _ _)
    have h1 : updateFirstProduct (p :: rest) pid f
        = p :: updateFirstProduct rest pid f := by
      simp [updateFirstProduct, hp]
    rw [h1, ih (fun q hq => h q (List.mem_cons_of_mem _ hq))]

theorem mem_updateFirstProduct {ps : List Product} {pid : Nat}
    {f : Product → Product} {q : Product}
    (hq : q ∈ updateFirstProduct ps pid f) :
    q ∈ ps ∨ ∃ p, ps.find? (fun r => r.id == pid) = some p ∧ q = f p := by
  induction ps with
  | nil => simp [updateFirstProduct] at hq
  | cons p rest ih =>
    by_cases hp : p.id = pid
    · have h1 : updateFirstProduct (p :: rest) pid f = f p :: rest := by
        simp [updateFirstProduct, hp]
      rw [h1, List.mem_cons] at hq
      rcases hq with rfl | hq
      · right
        refine ⟨p, ?_, rfl⟩
        exact List.find?_cons_of_pos _ (by simpa using hp)
      · exact Or.inl (List.mem_cons_of_mem _ hq)
    · have h1 : updateFirstProduct (p :: rest) pid f
          = p :: updateFirstProduct rest pid f := by
        simp [updateFirstProduct, hp]
      rw [h1, List.mem_cons] at hq
      rcases hq with rfl | hq
      · exact Or.inl (List.mem_cons_self _ _)
      · rcases ih hq with h' | ⟨p0, hfind, rfl⟩
        · exact Or.inl (List.mem_cons_of_mem _ h')
        · right
          refine ⟨p0, ?_, rfl⟩
          rw [List.find?_cons_of_neg _ (by simpa using hp)]
          exact hfind

theorem getStock_updateFirstProduct_ne (ps : List Product) (pid pid' : Nat)
    (f : Product → Product) (hf : ∀ p, (f p).id = p.id) (h : pid' ≠ pid) :
    getStock (updateFirstProduct ps pid f) pid' = getStock ps pid' := by
  induction ps with
  | nil => rfl
  | cons p rest ih =>
    by_cases hp : p.id = pid
    · have h1 : updateFirstProduct (p :: rest) pid f = f p :: rest := by
        simp [updateFirstProduct, hp]
      rw [h1, getStock_cons, getStock_cons, hf p]
      have hne : ¬ p.id = pid' := by rw [hp]; exact fun e => h e.symm
      rw [if_neg hne, if_neg hne]
    · have h1 : updateFirstProduct (p :: rest) pid f
          = p :: updateFirstProduct rest pid f := by
        simp [updateFirstProduct, hp]
      rw [h1, getStock_cons, getStock_cons]
      by_cases hp' : p.id = pid'
      · rw [if_pos hp', if_pos hp']
      · rw [if_neg hp', if_neg hp', ih]

theorem getStock_updateFirstProduct_eq (ps : List Product) (pid : Nat)
    (f : Product → Product) (g : Int → Int)
    (hf : ∀ p, (f p).id = p.id) (hg : ∀ p, (f p).stock = g p.stock) :
    getStock (updateFirstProduct ps pid f) pid = (getStock ps pid).map g := by
  induction ps with
  | nil => rfl
  | cons p rest ih =>
    by_cases hp : p.id = pid
    · have h1 : updateFirstProduct (p :: rest) pid f = f p :: rest := by
        simp [updateFirstProduct, hp]
      rw [h1, getStock_cons, getStock_cons, hf p, if_pos hp, if_pos hp, hg p]
      rfl
    · have h1 : updateFirstProduct (p :: rest) pid f
          = p :: updateFirstProduct rest pid f := by
        simp [updateFirstProduct, hp]
      rw [h1, getStock_cons, getStock_cons, if_neg hp, if_neg hp, ih]

theorem foldl_add_quantity (l : List CartItem) (n : Nat) :
    l.foldl (fun sum item => sum + item.quantity) n
      = n + l.foldl (fun sum item => sum + item.quantity) 0 := by
  induction l generalizing n with
  | nil => simp
  | cons i rest ih =>
    simp only [List.foldl_cons]
    rw [ih (n + i.quantity), ih (0 + i.quantity)]
    omega

theorem cartQuantity_cons (i : CartItem) (rest : List CartItem) (pid : Nat) :
    cartQuantity (i :: rest) pid
      = (if i.id = pid then i.quantity else 0) + cartQuantity rest pid := by
  by_cases hp : i.id = pid
  · have hb : ((fun item : CartItem => item.id == pid) i) = true := by simpa using hp
    have hfc : List.filter (fun item : CartItem => item.id == pid) (i :: rest)
        = i :: List.filter (fun item : CartItem => item.id == pid) rest :=
      List.filter_cons_of_pos hb
    rw [cartQuantity, hfc, List.foldl_cons, foldl_add_quantity, if_pos hp]
    show 0 + i.quantity + _ = i.quantity + cartQuantity rest pid
    rw [cartQuantity]
    omega
  · have hb : ¬ ((fun item : CartItem => item.id == pid) i) = true := by simpa using hp
    have hfc : List.filter (fun item : CartItem => item.id == pid) (i :: rest)
        = List.filter (fun item : CartItem => item.id == pid) rest :=
      List.filter_cons_of_neg hb
    rw [cartQuantity, hfc, if_neg hp]
    simp [cartQuantity]

theorem getStock_decrementStocks (cart : List CartItem) :
    ∀ (ps : List Product) (pid : Nat),
      getStock (decrementStocks ps cart) pid
        = (getStock ps pid).map (fun st => st - (cartQuantity cart pid : Int)) := by
  induction cart with
  | nil =>
    intro ps pid
    cases h : getStock ps pid <;> simp [decrementStocks, cartQuantity, h]
  | cons i rest ih =>
    intro ps pid
    have hstep : decrementStocks ps (i :: rest)
        = decrementStocks (updateFirstProduct ps i.id
            (fun p => { p with stock := p.stock - (i.quantity : Int) })) rest := rfl
    rw [hstep, ih]
    by_cases hp : i.id = pid
    · subst hp
      rw [getStock_updateFirstProduct_eq ps i.id
        (fun p => { p with stock := p.stock - (i.quantity : Int) })
        (fun st => st - (i.quantity : Int)) (fun p => rfl) (fun p => rfl)]
      rw [cartQuantity_cons, if_pos rfl]
      cases h : getStock ps i.id with
      | none => simp
      | some st =>
        simp only [Option.map_some']
        congr 1
        push_cast
        ring
    · rw [getStock_updateFirstProduct_ne ps i.id pid
        (fun p => { p with stock := p.stock - (i.quantity : Int) })
        (fun p => rfl) (fun e => hp e.symm)]
      rw [cartQuantity_cons, if_neg hp]
      simp

theorem decrementStocks_skip (pid : Nat) :
    ∀ (cart : List CartItem) (ps : List Product),
      (∀ p ∈ ps, ¬ p.id = pid) →
      decrementStocks ps cart
        = decrementStocks ps (cart.filter (fun it => !(it.id == pid))) := by
  intro cart
  induction cart with
  | nil => intro ps h; rfl
  | cons i rest ih =>
    intro ps h
    by_cases hid : i.id = pid
    · have hupd : updateFirstProduct ps i.id
          (fun p => { p with stock := p.stock - (i.quantity : Int) }) = ps :=
        updateFirstProduct_of_none ps i.id _
          (fun p hp => by rw [hid]; exact h p hp)
      have h1 : decrementStocks ps (i :: rest) = decrementStocks ps rest := by
        show decrementStocks (updateFirstProduct ps i.id
          (fun p => { p with stock := p.stock - (i.quantity : Int) })) rest
            = decrementStocks ps rest
        rw [hupd]
      have h2 : (i :: rest).filter (fun it => !(it.id == pid))
          = rest.filter (fun it => !(it.id == pid)) := by
        rw [List.filter_cons_of_neg (by simpa using hid)]
      rw [h1, h2]
      exact ih ps h
    · have h2 : (i :: rest).filter (fun it => !(it.id == pid))
          = i :: rest.filter (fun it => !(it.id == pid)) := by
        rw [List.filter_cons_of_pos (by simpa using hid)]
      rw [h2]
      show decrementStocks (updateFirstProduct ps i.id
          (fun p => { p with stock := p.stock - (i.quantity : Int) })) rest
        = decrementStocks (updateFirstProduct ps i.id
            (fun p => { p with stock := p.stock - (i.quantity : Int) }))
            (rest.filter (fun it => !(it.id == pid)))
      apply ih
      intro q hq
      rcases mem_updateFirstProduct hq with hq' | ⟨p0, hfind, rfl⟩
      · exact h q hq'
      · exact h p0 (List.mem_of_find?_eq_some hfind)

/-! ### Claim C2 -/

/-- C2 (amended): checkout on a nonempty cart decrements each product's
stock by exactly the total cart quantity for its id (a line with
quantity q decrements by q); but checkout performs no stock check — the
sale is appended regardless of the stock level, so an oversized line is
not rejected. -/
theorem C2_checkout_decrement (now : Nat) (cn cp : String) (te : Bool)
    (s : AppState) (pid : Nat) (h : s.cart ≠ []) :
    getStock (checkout now cn cp te s).products pid
        = (getStock s.products pid).map
            (fun st => st - (cartQuantity s.cart pid : Int)) ∧
    (checkout now cn cp te s).sales
        = s.sales ++ [checkoutSale now cn cp te s.cart s.discount] := by
  constructor
  · simp only [checkout, if_neg h]
    exact getStock_decrementStocks s.cart s.products pid
  · simp [checkout, h]

/-- Witness for C2 on a concrete two-line cart. -/
theorem C2_checkout_decrement_witness :
    getStock (checkout 3 "" "" false orphanState).products 1
        = (getStock orphanState.products 1).map
            (fun st => st - (cartQuantity orphanState.cart 1 : Int)) ∧
    (checkout 3 "" "" false orphanState).sales
        = orphanState.sales ++
            [checkoutSale 3 "" "" false orphanState.cart orphanState.discount] :=
  C2_checkout_decrement 3 "" "" false orphanState 1 (by decide)

/-- C2 counterexample: in `overdrawnState` the single cart line asks for
5 units while the live stock is 1, yet checkout is not rejected — a sale
is appended and the stock is driven to −4, contradicting the claimed
rejection (no sale appended, no stock changed). -/
theorem C2_no_stock_check_counterexample :
    (overdrawnState.cart.map (fun it => it.quantity) = [5] ∧
     getStock overdrawnState.products 1 = some 1) ∧
    (checkout 100 "" "" false overdrawnState).sales.length = 1 ∧
    getStock (checkout 100 "" "" false overdrawnState).products 1
      = some (-4) := by
  decide

/-! ### Claim C10 -/

/-- C10: when a cart line's product id matches no product in the
catalog, checkout does not fail: the sale is still appended with the
full cart as its item snapshot (including that line, whose price and
quantity enter the subtotal), the stock decrement for that line is
skipped, and the catalog still has no product under that id
afterwards. -/
theorem C10_missing_product (now : Nat) (cn cp : String) (te : Bool)
    (s : AppState) (l : CartItem) (hmem : l ∈ s.cart)
    (hnone : ∀ p ∈ s.products, ¬ p.id = l.id) :
    (checkout now cn cp te s).sales
        = s.sales ++ [checkoutSale now cn cp te s.cart s.discount] ∧
    (checkoutSale now cn cp te s.cart s.discount).items = s.cart ∧
    l ∈ (checkoutSale now cn cp te s.cart s.discount).items ∧
    (checkoutSale now cn cp te s.cart s.discount).subtotal
        = (s.cart.map (fun it => it.price * (it.quantity : ℚ))).sum ∧
    (checkout now cn cp te s).products
        = decrementStocks s.products
            (s.cart.filter (fun it => !(it.id == l.id))) ∧
    getStock (checkout now cn cp te s).products l.id = none := by
  have hne : s.cart ≠ [] := List.ne_nil_of_mem hmem
  have hstocknone : getStock s.products l.id = none := by
    rw [getStock, List.find?_eq_none.2 (fun p hp => by simpa using hnone p hp)]
    rfl
  refine ⟨by simp [checkout, hne], rfl, hmem, cartSubtotal_eq_sum s.cart,
    ?_, ?_⟩
  · simp only [checkout, if_neg hne]
    exact decrementStocks_skip l.id s.cart s.products hnone
  · simp only [checkout, if_neg hne]
    rw [getStock_decrementStocks, hstocknone]
    rfl

/-- Witness for C10: a cart holding a live line and an orphaned line. -/
theorem C10_missing_product_witness :
    (checkout 3 "" "" false orphanState).sales
        = orphanState.sales ++
            [checkoutSale 3 "" "" false orphanState.cart orphanState.discount] ∧
    (checkoutSale 3 "" "" false orphanState.cart orphanState.discount).items
        = orphanState.cart ∧
    orphanLine ∈
      (checkoutSale 3 "" "" false orphanState.cart orphanState.discount).items ∧
    (checkoutSale 3 "" "" false orphanState.cart orphanState.discount).subtotal
        = (orphanState.cart.map (fun it => it.price * (it.quantity : ℚ))).sum ∧
    (checkout 3 "" "" false orphanState).products
        = decrementStocks orphanState.products
            (orphanState.cart.filter (fun it => !(it.id == orphanLine.id))) ∧
    getStock (checkout 3 "" "" false orphanState).products orphanLine.id
      = none :=
  C10_missing_product 3 "" "" false orphanState orphanLine (by decide) (by decide)

/-! ### Claim C6 -/

/-- C6 (amended): a sale's id is the `Date.now()` value of its checkout,
so the appended id equals the checkout timestamp; ids stay strictly
increasing (hence unique) provided every earlier sale id is strictly
below the new checkout's timestamp — which fails for two checkouts in
the same millisecond. -/
theorem C6_sale_ids (now : Nat) (cn cp : String) (te : Bool) (s : AppState)
    (h1 : s.cart ≠ [])
    (h2 : (s.sales.map (fun sale => sale.id)).Pairwise (· < ·))
    (h3 : ∀ i ∈ s.sales.map (fun sale => sale.id), i < now) :
    (checkout now cn cp te s).sales.map (fun sale => sale.id)
        = s.sales.map (fun sale => sale.id) ++ [now] ∧
    ((checkout now cn cp te s).sales.map (fun sale => sale.id)).Pairwise
      (· < ·) := by
  have hmap : (checkout now cn cp te s).sales.map (fun sale => sale.id)
      = s.sales.map (fun sale => sale.id) ++ [now] := by
    simp [checkout, h1, checkoutSale]
  refine ⟨hmap, ?_⟩
  rw [hmap, List.pairwise_append]
  refine ⟨h2, by simp, ?_⟩
  intro a ha b hb
  rw [List.mem_singleton] at hb
  subst hb
  exact h3 a ha

/-- Witness for C6: a first checkout at time 5 on an empty ledger. -/
theorem C6_sale_ids_witness :
    (checkout 5 "" "" false w6state).sales.map (fun sale => sale.id)
        = w6state.sales.map (fun sale => sale.id) ++ [5] ∧
    ((checkout 5 "" "" false w6state).sales.map (fun sale => sale.id)).Pairwise
      (· < ·) :=
  C6_sale_ids 5 "" "" false w6state (by decide) (by decide) (by decide)

/-- C6 counterexample: two checkouts issued at the same `Date.now()`
value 5 produce the ledger id list `[5, 5]` — neither unique nor
strictly increasing. -/
theorem C6_duplicate_ids_counterexample :
    c6end.sales.map (fun sale => sale.id) = [5, 5] ∧
    ¬ (c6end.sales.map (fun sale => sale.id)).Pairwise (· < ·) ∧
    ¬ (c6end.sales.map (fun sale => sale.id)).Nodup := by
  decide

/-! ### Lemmas about first-match cart updates -/

theorem mem_updateFirstItem {cart : List CartItem} {pid : Nat}
    {f : CartItem → CartItem} {q : CartItem}
    (hq : q ∈ updateFirstItem cart pid f) :
    q ∈ cart ∨ ∃ it, cart.find? (fun r => r.id == pid) = some it ∧ q = f it := by
  induction cart with
  | nil => simp [updateFirstItem] at hq
  | cons it rest ih =>
    by_cases hp : it.id = pid
    · have h1 : updateFirstItem (it :: rest) pid f = f it :: rest := by
        simp [updateFirstItem, hp]
      rw [h1, List.mem_cons] at hq
      rcases hq with rfl | hq
      · right
        refine ⟨it, ?_, rfl⟩
        exact List.find?_cons_of_pos _ (by simpa using hp)
      · exact Or.inl (List.mem_cons_of_mem _ hq)
    · have h1 : updateFirstItem (it :: rest) pid f
          = it :: updateFirstItem rest pid f := by
        simp [updateFirstItem, hp]
      rw [h1, List.mem_cons] at hq
      rcases hq with rfl | hq
      · exact Or.inl (List.mem_cons_self _ _)
      · rcases ih hq with h' | ⟨it0, hfind, rfl⟩
        · exact Or.inl (List.mem_cons_of_mem _ h')
        · right
          refine ⟨it0, ?_, rfl⟩
          rw [List.find?_cons_of_neg _ (by simpa using hp)]
          exact hfind

theorem map_id_updateFirstItem (cart : List CartItem) (pid : Nat)
    (f : CartItem → CartItem) (hf : ∀ it, (f it).id = it.id) :
    (updateFirstItem cart pid f).map (fun it => it.id)
      = cart.map (fun it => it.id) := by
  induction cart with
  | nil => rfl
  | cons it rest ih =>
    by_cases hp : it.id = pid
    · simp [updateFirstItem, hp, hf]
    · simp [updateFirstItem, hp, ih]

/-! ### Preservation of the stock invariant -/

theorem decrementStocks_nonneg : ∀ (cart : List CartItem) (ps : List Product),
    (cart.map (fun it => it.id)).Nodup →
    (∀ p ∈ ps, 0 ≤ p.stock) →
    (∀ item ∈ cart, stockOKb ps item = true) →
    ∀ p ∈ decrementStocks ps cart, 0 ≤ p.stock := by
  intro cart
  induction cart with
  | nil => intro ps _ hps _ p hp; exact hps p hp
  | cons i rest ih =>
    intro ps hnodup hps hok p hp
    have hmapped : (i.id :: rest.map (fun it => it.id)).Nodup := by
      rw [← List.map_cons]
      exact hnodup
    have hn := List.nodup_cons.1 hmapped
    have hp' : p ∈ decrementStocks (updateFirstProduct ps i.id
        (fun r => { r with stock := r.stock - (i.quantity : Int) })) rest := hp
    refine ih (updateFirstProduct ps i.id
      (fun r => { r with stock := r.stock - (i.quantity : Int) }))
      hn.2 ?_ ?_ p hp'
    · intro q hq
      rcases mem_updateFirstProduct hq with hq' | ⟨p0, hfind, rfl⟩
      · exact hps q hq'
      · have hst : getStock ps i.id = some p0.stock := by
          rw [getStock, hfind]; rfl
        have hok_i := hok i (List.mem_cons_self _ _)
        simp only [stockOKb, hst, decide_eq_true_eq] at hok_i
        show 0 ≤ p0.stock - (i.quantity : Int)
        omega
    · intro item hitem
      have hne : item.id ≠ i.id := by
        intro heq
        exact hn.1 (heq ▸ List.mem_map_of_mem (fun it => it.id) hitem)
      have hgs : getStock (updateFirstProduct ps i.id
          (fun r => { r with stock := r.stock - (i.quantity : Int) })) item.id
            = getStock ps item.id :=
        getStock_updateFirstProduct_ne ps i.id item.id
          (fun r => { r with stock := r.stock - (i.quantity : Int) })
          (fun r => rfl) hne
      have hok' := hok item (List.mem_cons_of_mem _ hitem)
      simpa only [stockOKb, hgs] using hok'

theorem stockInv_checkout (now : Nat) (cn cp : String) (te : Bool)
    (s : AppState) (h : StockInv s) : StockInv (checkout now cn cp te s) := by
  obtain ⟨hstocks, hitems, hnodup⟩ := h
  by_cases hc : s.cart = []
  · simpa [checkout, hc] using ⟨hstocks, hitems, hnodup⟩
  · rw [checkout, if_neg hc]
    refine ⟨?_, by simp, by simp⟩
    exact decrementStocks_nonneg s.cart s.products hnodup hstocks hitems

theorem stockInv_addToCart (pid : Nat) (s : AppState) (h : StockInv s) :
    StockInv (addToCart pid s) := by
  obtain ⟨hstocks, hitems, hnodup⟩ := h
  cases hfp : s.products.find? (fun p => p.id == pid) with
  | none => simpa [addToCart, hfp] using ⟨hstocks, hitems, hnodup⟩
  | some product =>
    have hpid : product.id = pid := by simpa using List.find?_some hfp
    have hmemp : product ∈ s.products := List.mem_of_find?_eq_some hfp
    by_cases hz : product.stock = 0
    · simpa [addToCart, hfp, hz] using ⟨hstocks, hitems, hnodup⟩
    · cases hfc : s.cart.find? (fun item => item.id == pid) with
      | some existing =>
        by_cases hge : product.stock ≤ (existing.quantity : Int)
        · simpa [addToCart, hfp, hz, hfc, hge] using ⟨hstocks, hitems, hnodup⟩
        · have hred : addToCart pid s = { s with cart :=
              (updateFirstItem s.cart pid
                (fun it => { it with quantity := it.quantity + 1 })) } := by
            simp [addToCart, hfp, hz, hfc, hge]
          rw [hred]
          have hexid : existing.id = pid := by simpa using List.find?_some hfc
          refine ⟨hstocks, ?_, ?_⟩
          · intro item hitem
            rcases mem_updateFirstItem hitem with hmem | ⟨it0, hfind, rfl⟩
            · exact hitems item hmem
            · have heq : it0 = existing := Option.some.inj (hfind.symm.trans hfc)
              rw [← heq] at hge
              have hexid0 : it0.id = pid := by simpa using List.find?_some hfind
              have hgs : getStock s.products it0.id = some product.stock := by
                rw [getStock, hexid0, hfp]; rfl
              simp only [stockOKb, hgs, decide_eq_true_eq]
              push_cast
              omega
          · rw [map_id_updateFirstItem s.cart pid
              (fun it => { it with quantity := it.quantity + 1 })
              (fun it => rfl)]
            exact hnodup
      | none =>
        have hnotin : ∀ it ∈ s.cart, ¬ it.id = pid := by
          intro it hit
          have := List.find?_eq_none.1 hfc it hit
          simpa using this
        have hred : addToCart pid s = { s with cart :=
            (s.cart ++
              [{ id := product.id, name := product.name,
                 price := product.price, quantity := 1 }]) } := by
          simp [addToCart, hfp, hz, hfc]
        rw [hred]
        refine ⟨hstocks, ?_, ?_⟩
        · intro item hitem
          rcases List.mem_append.1 hitem with hmem | hmem
          · exact hitems item hmem
          · rw [List.mem_singleton] at hmem
            subst hmem
            have hgs : getStock s.products product.id = some product.stock := by
              rw [getStock, hpid, hfp]; rfl
            simp only [stockOKb, hgs, decide_eq_true_eq]
            have := hstocks product hmemp
            push_cast
            omega
        · rw [List.map_append, List.nodup_append]
          refine ⟨hnodup, by simp, ?_⟩
          intro a ha hb
          simp only [List.map_cons, List.map_nil, List.mem_singleton] at hb
          subst hb
          obtain ⟨it, hit, hita⟩ := List.mem_map.1 ha
          exact hnotin it hit (by rw [hita, hpid])

theorem stockInv_removeFromCart (pid : Nat) (s : AppState) (h : StockInv s) :
    StockInv (removeFromCart pid s) := by
  obtain ⟨hstocks, hitems, hnodup⟩ := h
  refine ⟨hstocks, ?_, ?_⟩
  · intro item hitem
    exact hitems item (List.mem_of_mem_filter hitem)
  · have hsub : ((s.cart.filter (fun it => !(it.id == pid))).map
        (fun it => it.id)).Sublist (s.cart.map (fun it => it.id)) :=
      (List.filter_sublist _).map _
    exact List.Nodup.sublist hsub hnodup

theorem stockInv_updateQuantity (pid : Nat) (change : Int) (s : AppState)
    (h : StockInv s) : StockInv (updateQuantity pid change s) := by
  obtain ⟨hstocks, hitems, hnodup⟩ := h
  cases hfc : s.cart.find? (fun item => item.id == pid) with
  | none => simpa [updateQuantity, hfc] using ⟨hstocks, hitems, hnodup⟩
  | some item =>
    by_cases hle : (item.quantity : Int) + change ≤ 0
    · have hred : updateQuantity pid change s = removeFromCart pid s := by
        simp [updateQuantity, hfc, hle]
      rw [hred]
      exact stockInv_removeFromCart pid s ⟨hstocks, hitems, hnodup⟩
    · cases hfp : s.products.find? (fun p => p.id == pid) with
      | none => simpa [updateQuantity, hfc, hle, hfp] using ⟨hstocks, hitems, hnodup⟩
      | some product =>
        by_cases hgt : product.stock < (item.quantity : Int) + change
        · simpa [updateQuantity, hfc, hle, hfp, hgt] using
            ⟨hstocks, hitems, hnodup⟩
        · have hred : updateQuantity pid change s = { s with cart :=
              (updateFirstItem s.cart pid (fun it =>
                { it with
                  quantity := ((item.quantity : Int) + change).toNat })) } := by
            simp [updateQuantity, hfc, hle, hfp, hgt]
          rw [hred]
          refine ⟨hstocks, ?_, ?_⟩
          · intro it hit
            rcases mem_updateFirstItem hit with hmem | ⟨it0, hfind, rfl⟩
            · exact hitems it hmem
            · have hitid0 : it0.id = pid := by simpa using List.find?_some hfind
              have hgs : getStock s.products it0.id = some product.stock := by
                rw [getStock, hitid0, hfp]; rfl
              simp only [stockOKb, hgs, decide_eq_true_eq]
              omega
          · rw [map_id_updateFirstItem s.cart pid
              (fun it =>
                { it with quantity := ((item.quantity : Int) + change).toNat })
              (fun it => rfl)]
            exact hnodup

theorem stockInv_reorder (pid : Nat) (q : Int) (s : AppState) (hq : 0 ≤ q)
    (h : StockInv s) : StockInv (reorderProduct pid q s) := by
  obtain ⟨hstocks, hitems, hnodup⟩ := h
  cases hfp : s.products.find? (fun p => p.id == pid) with
  | none => simpa [reorderProduct, hfp] using ⟨hstocks, hitems, hnodup⟩
  | some product =>
    have hred : reorderProduct pid q s = { s with products :=
        (updateFirstProduct s.products pid
          (fun p => { p with stock := p.stock + q })) } := by
      simp [reorderProduct, hfp]
    rw [hred]
    have hgs0 : getStock s.products pid = some product.stock := by
      rw [getStock, hfp]; rfl
    refine ⟨?_, ?_, hnodup⟩
    · intro p hp
      rcases mem_updateFirstProduct hp with hmem | ⟨p0, hfind, rfl⟩
      · exact hstocks p hmem
      · have := hstocks p0 (List.mem_of_find?_eq_some hfind)
        show 0 ≤ p0.stock + q
        omega
    · intro item hitem
      have hok := hitems item hitem
      by_cases hid : item.id = pid
      · have hgs' : getStock (updateFirstProduct s.products pid
            (fun p => { p with stock := p.stock + q })) item.id
              = some (product.stock + q) := by
          rw [hid, getStock_updateFirstProduct_eq s.products pid
            (fun p => { p with stock := p.stock + q }) (fun st => st + q)
            (fun p => rfl) (fun p => rfl), hgs0]
          rfl
        have hgs : getStock s.products item.id = some product.stock := by
          rw [hid, hgs0]
        simp only [stockOKb, hgs, decide_eq_true_eq] at hok
        simp only [stockOKb, hgs', decide_eq_true_eq]
        omega
      · have hgs : getStock (updateFirstProduct s.products pid
            (fun p => { p with stock := p.stock + q })) item.id
              = getStock s.products item.id :=
          getStock_updateFirstProduct_ne s.products pid item.id
            (fun p => { p with stock := p.stock + q }) (fun p => rfl) hid
        simpa only [stockOKb, hgs] using hok

/-! ### Claim C3 -/

/-- C3 (amended): the stock invariant (all stocks nonnegative, every
cart line within its product's live stock, distinct cart ids) is
preserved by add-to-cart, update-quantity, checkout, and reorder with a
nonnegative quantity — but, as the counterexample shows, product edit
(`saveProduct`) is not bound by committed cart quantities, and a
checkout after such an edit drives the stock negative, so nonnegativity
does not hold in every reachable state. -/
theorem C3_stock_invariant (s : AppState) (pid : Nat) (change q : Int)
    (now : Nat) (cn cp : String) (te : Bool) (h : StockInv s) :
    StockInv (addToCart pid s) ∧ StockInv (updateQuantity pid change s) ∧
    StockInv (checkout now cn cp te s) ∧
    (0 ≤ q → StockInv (reorderProduct pid q s)) :=
  ⟨stockInv_addToCart pid s h, stockInv_updateQuantity pid change s h,
   stockInv_checkout now cn cp te s h,
   fun hq => stockInv_reorder pid q s hq h⟩

/-- Witness for C3 on a concrete invariant-satisfying state. -/
theorem C3_stock_invariant_witness :
    StockInv emptyCartState ∧
    (StockInv (addToCart 1 emptyCartState) ∧
     StockInv (updateQuantity 1 1 emptyCartState) ∧
     StockInv (checkout 2 "" "" false emptyCartState) ∧
     (0 ≤ (5 : Int) → StockInv (reorderProduct 1 5 emptyCartState))) :=
  ⟨by decide, C3_stock_invariant emptyCartState 1 1 5 2 "" "" false (by decide)⟩

/-- C3 counterexample: from a state satisfying the stock invariant, the
operation sequence add-to-cart ×3, product edit (stock lowered from 3 to
1), checkout — all operations named by the claim — ends with the
product's stock at −2, refuting the claimed global nonnegativity
invariant. -/
theorem C3_negative_stock_counterexample :
    StockInv c3start ∧ getStock c3end.products 1 = some (-2) := by
  decide

end POS
